import Mathlib

/-!
Verification of the input-event interpretation and motion-control state
machine of the robot-ps4 repository (`robot_controller.py`,
`robot_ps4/config.py`).

Python floats are embedded as rationals (`ℚ`), timestamps returned by
`time.time()` as rationals threaded explicitly through the operations,
and Python exceptions as `Option` (a `none` result models a raised
exception at a point whose Python behaviour would be an error, e.g.
subtracting a `None` timestamp).  Strings are kept as strings, matching
the source's use of direction names and speed-type keys.
-/

/-- Configuration constants of `robot_ps4/config.py` (the environment
variables, with their defaults captured in `defaultConfig` below). -/
structure Config where
  LEFT_MOTOR_SPEED : ℚ
  RIGHT_MOTOR_SPEED : ℚ
  SLOW_SPEED : ℚ
  NORMAL_SPEED : ℚ
  FAST_SPEED : ℚ
  SUPER_SPEED : ℚ
  HIGH_DEADZONE : ℤ
  LOW_DEADZONE : ℤ
deriving Repr, DecidableEq

/-- The default values from `config.py`: 0.5, 0.51, 0.25, 0.5, 0.75,
0.99, 150, 100. -/
def defaultConfig : Config where
  LEFT_MOTOR_SPEED := 1/2
  RIGHT_MOTOR_SPEED := 51/100
  SLOW_SPEED := 1/4
  NORMAL_SPEED := 1/2
  FAST_SPEED := 3/4
  SUPER_SPEED := 99/100
  HIGH_DEADZONE := 150
  LOW_DEADZONE := 100

/-- `PS4Controller.create_key_map`: button name to evdev event code. -/
def key_map (name : String) : Int :=
  if name = "x" then 304
  else if name = "square" then 308
  else if name = "triangle" then 307
  else if name = "circle" then 305
  else if name = "lt" then 312
  else if name = "lb" then 310
  else if name = "rt" then 313
  else if name = "rb" then 311
  else 0

/-- `self.BUTTON_PRESS = 1`. -/
def BUTTON_PRESS : Int := 1

/-- `self.BUTTON_RELEASE = 0`. -/
def BUTTON_RELEASE : Int := 0

/-- evdev's `ecodes.ABS_X`. -/
def ABS_X : Int := 0

/-- evdev's `ecodes.EV_KEY`. -/
def EV_KEY : Int := 1

/-- evdev's `ecodes.EV_ABS`. -/
def EV_ABS : Int := 3

/-- The mutable fields of `PS4Controller` that the control logic reads
and writes: the two motor trims, the three entries of
`variable_speed_map` (integers 0/1 in the source), and the direction
tracking pair. -/
structure PS4State where
  leftmotorspeed : ℚ
  rightmotorspeed : ℚ
  slow : ℕ
  fast : ℕ
  super : ℕ
  current_direction : Option String
  direction_start_time : Option ℚ
deriving Repr, DecidableEq

/-- The state set up by `PS4Controller.__init__`. -/
def initState (cfg : Config) : PS4State where
  leftmotorspeed := cfg.LEFT_MOTOR_SPEED
  rightmotorspeed := cfg.RIGHT_MOTOR_SPEED
  slow := 0
  fast := 0
  super := 0
  current_direction := none
  direction_start_time := none

/-- One duration-on-direction log record emitted by `move` when the
direction changes away from a previous one. -/
structure TelemetryEvent where
  direction : String
  duration : ℚ
deriving Repr, DecidableEq

/-- The `directions` dictionary built inside `PS4Controller.move`,
including the `.get(direction, (0, 0))` default for unknown keys. -/
def directions (s : PS4State) (direction : String) : ℚ × ℚ :=
  if direction = "forward" then (-s.leftmotorspeed, -s.rightmotorspeed)
  else if direction = "backward" then (s.leftmotorspeed, s.rightmotorspeed)
  else if direction = "left" then (-s.leftmotorspeed, s.rightmotorspeed)
  else if direction = "right" then (s.leftmotorspeed, -s.rightmotorspeed)
  else if direction = "sharp_left" then (1, -1)
  else if direction = "sharp_right" then (-1, 1)
  else if direction = "stop" then (0, 0)
  else (0, 0)

/-- `PS4Controller.move`.  Returns the new state, the motor command
assigned to `robot.value`, and the telemetry record logged when the
direction changed away from a previous one.  `none` models the Python
`TypeError` that would be raised on `time.time() - None` when
`current_direction` is set but `direction_start_time` is `None`. -/
def move (s : PS4State) (now : ℚ) (direction : String) :
    Option (PS4State × (ℚ × ℚ) × Option TelemetryEvent) :=
  if s.current_direction = some direction then
    some (s, directions s direction, none)
  else
    match s.current_direction, s.direction_start_time with
    | some _, none => none
    | some d0, some t0 =>
        let s' : PS4State :=
          { s with current_direction := some direction,
                   direction_start_time := some now }
        some (s', directions s' direction, some ⟨d0, now - t0⟩)
    | none, _ =>
        let s' : PS4State :=
          { s with current_direction := some direction,
                   direction_start_time := some now }
        some (s', directions s' direction, none)

/-- `PS4Controller.spin`: move `sharp_{direction}`, `time.sleep(1)`,
then move `stop`.  Each emitted motor command is paired with the time
at which it is issued. -/
def spin (s : PS4State) (now : ℚ) (direction : String) :
    Option (PS4State × List ((ℚ × ℚ) × ℚ) × List TelemetryEvent) :=
  match move s now ("sharp_" ++ direction) with
  | none => none
  | some (s1, c1, tel1) =>
    match move s1 (now + 1) "stop" with
    | none => none
    | some (s2, c2, tel2) =>
      some (s2, [(c1, now), (c2, now + 1)], tel1.toList ++ tel2.toList)

/-- Read of `self.variable_speed_map[speed_type]`; `none` models the
`KeyError` on a key other than the three stored ones. -/
def variable_speed_map (s : PS4State) (speed_type : String) : Option ℕ :=
  if speed_type = "slow" then some s.slow
  else if speed_type = "fast" then some s.fast
  else if speed_type = "super" then some s.super
  else none

/-- Write of `self.variable_speed_map[speed_type] = v`. -/
def set_variable_speed (s : PS4State) (speed_type : String) (v : ℕ) :
    PS4State :=
  if speed_type = "slow" then { s with slow := v }
  else if speed_type = "fast" then { s with fast := v }
  else if speed_type = "super" then { s with super := v }
  else s

/-- `PS4Controller.modify_speed_helper`. -/
def modify_speed_helper (cfg : Config) (s : PS4State) (speed_type : String) :
    Option PS4State :=
  match variable_speed_map s speed_type with
  | none => none
  | some flag =>
    if flag = 0 then
      let s1 : PS4State :=
        if speed_type = "slow" then
          { s with leftmotorspeed := cfg.SLOW_SPEED,
                   rightmotorspeed := cfg.SLOW_SPEED + 1/100 }
        else if speed_type = "fast" then
          { s with leftmotorspeed := cfg.FAST_SPEED,
                   rightmotorspeed := cfg.FAST_SPEED + 1/100 }
        else if speed_type = "super" then
          { s with leftmotorspeed := cfg.SUPER_SPEED,
                   rightmotorspeed := cfg.SUPER_SPEED + 1/100 }
        else s
      some (set_variable_speed s1 speed_type 1)
    else
      some (set_variable_speed
        { s with leftmotorspeed := cfg.NORMAL_SPEED,
                 rightmotorspeed := cfg.NORMAL_SPEED + 1/100 }
        speed_type 0)

/-- `PS4Controller.modify_speed`. -/
def modify_speed (cfg : Config) (s : PS4State) (event_code : Int) :
    Option PS4State :=
  if event_code = key_map "square" then modify_speed_helper cfg s "slow"
  else if event_code = key_map "x" then modify_speed_helper cfg s "fast"
  else if event_code = key_map "circle" then modify_speed_helper cfg s "super"
  else some s

/-- Result of `PS4Controller.handle_key_event`: either the updated
`button_is_held` flag, updated state and emitted commands/telemetry, or
the `KeyboardInterrupt` raised on the triangle button. -/
inductive KeyOutcome where
  | ok (button_is_held : Bool) (s : PS4State)
       (cmds : List ((ℚ × ℚ) × ℚ)) (tels : List TelemetryEvent)
  | interrupt
deriving Repr, DecidableEq

/-- `PS4Controller.handle_key_event`. -/
def handle_key_event (cfg : Config) (s : PS4State) (now : ℚ)
    (button_is_held : Bool) (code value : Int) : Option KeyOutcome :=
  if value = BUTTON_PRESS then
    if code = key_map "rb" then
      (move s now "forward").map fun r => .ok true r.1 [(r.2.1, now)] r.2.2.toList
    else if code = key_map "lb" then
      (move s now "backward").map fun r => .ok true r.1 [(r.2.1, now)] r.2.2.toList
    else some (.ok true s [] [])
  else if value = BUTTON_RELEASE then
    if code = key_map "lb" ∨ code = key_map "rb" then
      (move s now "stop").map fun r => .ok false r.1 [(r.2.1, now)] r.2.2.toList
    else if code = key_map "lt" ∨ code = key_map "rt" then
      (spin s now (if code = 313 then "right" else "left")).map
        fun r => .ok false r.1 r.2.1 r.2.2
    else if code = key_map "square" ∨ code = key_map "x" ∨
        code = key_map "circle" then
      (modify_speed cfg s code).map fun s' => .ok false s' [] []
    else if code = key_map "triangle" then
      some .interrupt
    else some (.ok false s [] [])
  else some (.ok button_is_held s [] [])

/-- `PS4Controller.handle_abs_event` (only `ABS_X` is handled). -/
def handle_abs_event (cfg : Config) (s : PS4State) (now : ℚ)
    (button_is_held : Bool) (code value : Int) :
    Option (PS4State × List ((ℚ × ℚ) × ℚ) × List TelemetryEvent) :=
  if code = ABS_X then
    if value ≥ cfg.HIGH_DEADZONE then
      (move s now "right").map fun r => (r.1, [(r.2.1, now)], r.2.2.toList)
    else if value ≤ cfg.LOW_DEADZONE then
      (move s now "left").map fun r => (r.1, [(r.2.1, now)], r.2.2.toList)
    else
      if !button_is_held then
        (move s now "stop").map fun r => (r.1, [(r.2.1, now)], r.2.2.toList)
      else some (s, [], [])
  else some (s, [], [])

/-- A raw evdev input event as consumed by `PS4Controller.main`. -/
structure RawEvent where
  etype : Int
  code : Int
  value : Int
deriving Repr, DecidableEq

/-- How a run of the session loop ended: the event stream was
exhausted, `KeyboardInterrupt` was caught, or another exception was
caught. -/
inductive TermKind where
  | eof
  | interrupted
  | errored
deriving Repr, DecidableEq

/-- The `try` body and `except` handlers of `PS4Controller.main`,
processing a finite prefix of the event stream (each event paired with
the time at which it is processed).  `readErr = some terr` models
`read_loop` raising a device-read exception at time `terr` after the
listed events; `readErr = none` models the stream ending.  Both
`except` branches perform `self.move("stop")`.  Returns the emitted
timed motor commands and how the loop ended; `none` is a modelling
failure that never occurs from a reachable state. -/
def mainLoop (cfg : Config) (s : PS4State) (button_is_held : Bool)
    (events : List (ℚ × RawEvent)) (readErr : Option ℚ) :
    Option (List ((ℚ × ℚ) × ℚ) × TermKind) :=
  match events with
  | [] =>
    match readErr with
    | none => some ([], .eof)
    | some terr =>
      (move s terr "stop").map fun r => ([(r.2.1, terr)], .errored)
  | (t, ev) :: rest =>
    if ev.etype = EV_KEY then
      match handle_key_event cfg s t button_is_held ev.code ev.value with
      | none =>
        (move s t "stop").map fun r => ([(r.2.1, t)], .errored)
      | some .interrupt =>
        (move s t "stop").map fun r => ([(r.2.1, t)], .interrupted)
      | some (.ok held' s' cmds _) =>
        (mainLoop cfg s' held' rest readErr).map fun r => (cmds ++ r.1, r.2)
    else if ev.etype = EV_ABS then
      match handle_abs_event cfg s t button_is_held ev.code ev.value with
      | none =>
        (move s t "stop").map fun r => ([(r.2.1, t)], .errored)
      | some (s', cmds, _) =>
        (mainLoop cfg s' button_is_held rest readErr).map
          fun r => (cmds ++ r.1, r.2)
    else
      mainLoop cfg s button_is_held rest readErr

/-- `PS4Controller.main` as seen by its caller: `Except.ok` means the
method returned normally, `Except.error` would mean an exception
escaped it.  Both `except` clauses of the source catch and log, so
every completed run is wrapped in `Except.ok`. -/
def mainMethod (cfg : Config) (events : List (ℚ × RawEvent)) (readErr : Option ℚ) :
    Option (Except Unit (List ((ℚ × ℚ) × ℚ) × TermKind)) :=
  (mainLoop cfg (initState cfg) false events readErr).map Except.ok

/-- The magnitude `modify_speed_helper` installs when the named tier
toggles on. -/
def tierMag (cfg : Config) (t : String) : ℚ :=
  if t = "slow" then cfg.SLOW_SPEED
  else if t = "fast" then cfg.FAST_SPEED
  else if t = "super" then cfg.SUPER_SPEED
  else cfg.NORMAL_SPEED

/-- States reachable from the freshly initialised controller by the
operations of the class. -/
inductive Reachable (cfg : Config) : PS4State → Prop where
  | init : Reachable cfg (initState cfg)
  | move_step {s s' : PS4State} {now : ℚ} {d : String} {c : ℚ × ℚ}
      {tel : Option TelemetryEvent} : Reachable cfg s →
      move s now d = some (s', c, tel) → Reachable cfg s'
  | spin_step {s s' : PS4State} {now : ℚ} {d : String}
      {cmds : List ((ℚ × ℚ) × ℚ)} {tels : List TelemetryEvent} :
      Reachable cfg s → spin s now d = some (s', cmds, tels) →
      Reachable cfg s'
  | speed_step {s s' : PS4State} {code : Int} : Reachable cfg s →
      modify_speed cfg s code = some s' → Reachable cfg s'
  | key_step {s s' : PS4State} {now : ℚ} {held held' : Bool}
      {code value : Int} {cmds : List ((ℚ × ℚ) × ℚ)}
      {tels : List TelemetryEvent} : Reachable cfg s →
      handle_key_event cfg s now held code value =
        some (.ok held' s' cmds tels) → Reachable cfg s'
  | abs_step {s s' : PS4State} {now : ℚ} {held : Bool} {code value : Int}
      {cmds : List ((ℚ × ℚ) × ℚ)} {tels : List TelemetryEvent} :
      Reachable cfg s →
      handle_abs_event cfg s now held code value = some (s', cmds, tels) →
      Reachable cfg s'

/-! ### Helper lemmas -/

/-- The timestamp invariant: `direction_start_time` is set whenever
`current_direction` is. -/
def startInv (s : PS4State) : Prop :=
  s.current_direction ≠ none → s.direction_start_time ≠ none

theorem directions_update (s : PS4State) (cd : Option String) (st : Option ℚ)
    (d : String) :
    directions { s with current_direction := cd, direction_start_time := st } d
      = directions s d := rfl

theorem move_spec (s : PS4State) (now : ℚ) (d : String) (h : startInv s) :
    ∃ s' tel, move s now d = some (s', directions s d, tel) ∧
      s'.current_direction = some d ∧ s'.direction_start_time ≠ none ∧
      s'.leftmotorspeed = s.leftmotorspeed ∧
      s'.rightmotorspeed = s.rightmotorspeed ∧
      s'.slow = s.slow ∧ s'.fast = s.fast ∧ s'.super = s.super := by
  by_cases hd : s.current_direction = some d
  · have hst : s.direction_start_time ≠ none := h (by simp [hd])
    exact ⟨s, none, by simp [move, hd], hd, hst, rfl, rfl, rfl, rfl, rfl⟩
  · rcases hcd : s.current_direction with _ | d0
    · refine ⟨{ s with current_direction := some d, direction_start_time := some now }, none, ?_, rfl, by simp, rfl, rfl, rfl, rfl, rfl⟩
      simp [move, hd, hcd, directions_update]
    · have hst : s.direction_start_time ≠ none := h (by simp [hcd])
      rcases hts : s.direction_start_time with _ | t0
      · exact absurd hts hst
      · refine ⟨{ s with current_direction := some d, direction_start_time := some now }, some ⟨d0, now - t0⟩, ?_, rfl, by simp, rfl, rfl, rfl, rfl, rfl⟩
        simp [move, hd, hcd, hts, directions_update]
        intro hdd
        exact hd (by rw [hcd, hdd])

theorem move_startInv {s : PS4State} {now : ℚ} {d : String} {s' : PS4State}
    {c : ℚ × ℚ} {tel : Option TelemetryEvent} (h : startInv s)
    (hm : move s now d = some (s', c, tel)) :
    startInv s' ∧ s'.leftmotorspeed = s.leftmotorspeed ∧
      s'.rightmotorspeed = s.rightmotorspeed ∧
      s'.slow = s.slow ∧ s'.fast = s.fast ∧ s'.super = s.super := by
  obtain ⟨s0, tel0, he, hcd, hst, h1, h2, h3, h4, h5⟩ := move_spec s now d h
  rw [he] at hm
  simp only [Option.some.injEq, Prod.mk.injEq] at hm
  obtain ⟨rfl, -, -⟩ := hm
  exact ⟨fun _ => hst, h1, h2, h3, h4, h5⟩

theorem move_cmd {s : PS4State} {now : ℚ} {d : String} {s' : PS4State}
    {c : ℚ × ℚ} {tel : Option TelemetryEvent}
    (hm : move s now d = some (s', c, tel)) : c = directions s d := by
  unfold move at hm
  split at hm
  · simp only [Option.some.injEq, Prod.mk.injEq] at hm
    exact hm.2.1.symm
  · split at hm
    · exact absurd hm (by simp)
    · simp only [Option.some.injEq, Prod.mk.injEq] at hm
      exact hm.2.1.symm.trans (directions_update ..)
    · simp only [Option.some.injEq, Prod.mk.injEq] at hm
      exact hm.2.1.symm.trans (directions_update ..)

theorem spin_spec (s : PS4State) (now : ℚ) (d : String) (h : startInv s) :
    ∃ s' tels, spin s now d =
      some (s', [(directions s ("sharp_" ++ d), now), ((0, 0), now + 1)], tels) ∧
      startInv s' ∧ s'.leftmotorspeed = s.leftmotorspeed ∧
      s'.rightmotorspeed = s.rightmotorspeed ∧
      s'.slow = s.slow ∧ s'.fast = s.fast ∧ s'.super = s.super := by
  obtain ⟨s1, tel1, he1, hcd1, hst1, hl1, hr1, hs1, hf1, hsu1⟩ :=
    move_spec s now ("sharp_" ++ d) h
  have h1 : startInv s1 := fun _ => hst1
  obtain ⟨s2, tel2, he2, hcd2, hst2, hl2, hr2, hs2, hf2, hsu2⟩ :=
    move_spec s1 (now + 1) "stop" h1
  refine ⟨s2, tel1.toList ++ tel2.toList, ?_, fun _ => hst2,
    hl2.trans hl1, hr2.trans hr1, hs2.trans hs1, hf2.trans hf1,
    hsu2.trans hsu1⟩
  have hstop : directions s1 "stop" = ((0 : ℚ), (0 : ℚ)) := rfl
  simp [spin, he1, he2, hstop]

theorem modify_speed_helper_some (cfg : Config) (s : PS4State) (t : String)
    (ht : t = "slow" ∨ t = "fast" ∨ t = "super") :
    ∃ s', modify_speed_helper cfg s t = some s' := by
  rcases ht with rfl | rfl | rfl
  · by_cases h0 : s.slow = 0 <;>
      simp [modify_speed_helper, variable_speed_map, h0]
  · by_cases h0 : s.fast = 0 <;>
      simp [modify_speed_helper, variable_speed_map, h0]
  · by_cases h0 : s.super = 0 <;>
      simp [modify_speed_helper, variable_speed_map, h0]

theorem modify_speed_helper_dir {cfg : Config} {s : PS4State} {t : String}
    {s' : PS4State} (h : modify_speed_helper cfg s t = some s') :
    s'.current_direction = s.current_direction ∧
      s'.direction_start_time = s.direction_start_time := by
  unfold modify_speed_helper at h
  split at h
  · exact absurd h (by simp)
  · split_ifs at h <;>
      (injection h with h; subst h;
       refine ⟨?_, ?_⟩ <;> (unfold set_variable_speed; split_ifs <;> rfl))

theorem modify_speed_spec (cfg : Config) (s : PS4State) (code : Int) :
    ∃ s', modify_speed cfg s code = some s' ∧
      s'.current_direction = s.current_direction ∧
      s'.direction_start_time = s.direction_start_time := by
  unfold modify_speed
  split_ifs
  · obtain ⟨s', h⟩ := modify_speed_helper_some cfg s "slow" (Or.inl rfl)
    exact ⟨s', h, modify_speed_helper_dir h⟩
  · obtain ⟨s', h⟩ := modify_speed_helper_some cfg s "fast" (Or.inr (Or.inl rfl))
    exact ⟨s', h, modify_speed_helper_dir h⟩
  · obtain ⟨s', h⟩ := modify_speed_helper_some cfg s "super" (Or.inr (Or.inr rfl))
    exact ⟨s', h, modify_speed_helper_dir h⟩
  · exact ⟨s, rfl, rfl, rfl⟩

theorem handle_key_spec (cfg : Config) (s : PS4State) (now : ℚ)
    (held : Bool) (code value : Int) (h : startInv s) :
    (value = 0 ∧ code = key_map "triangle" ∧
       handle_key_event cfg s now held code value = some .interrupt) ∨
    (∃ s' cmds tels,
       handle_key_event cfg s now held code value =
         some (.ok (if value = 1 then true else if value = 0 then false else held)
           s' cmds tels) ∧
       startInv s') := by
  unfold handle_key_event
  by_cases h1 : value = BUTTON_PRESS
  · rw [if_pos h1]
    have hv : value = 1 := h1
    subst hv
    simp only [if_pos rfl]
    by_cases h2 : code = key_map "rb"
    · rw [if_pos h2]
      obtain ⟨s0, tel0, he, -, hst, -⟩ := move_spec s now "forward" h
      exact Or.inr ⟨s0, _, _, by rw [he]; rfl, fun _ => hst⟩
    · rw [if_neg h2]
      by_cases h3 : code = key_map "lb"
      · rw [if_pos h3]
        obtain ⟨s0, tel0, he, -, hst, -⟩ := move_spec s now "backward" h
        exact Or.inr ⟨s0, _, _, by rw [he]; rfl, fun _ => hst⟩
      · rw [if_neg h3]
        exact Or.inr ⟨s, _, _, rfl, h⟩
  · rw [if_neg h1]
    by_cases h0 : value = BUTTON_RELEASE
    · rw [if_pos h0]
      have hv : value = 0 := h0
      subst hv
      have h1' : ¬((0 : Int) = 1) := by decide
      simp only [if_neg h1', if_pos rfl]
      by_cases h2 : code = key_map "lb" ∨ code = key_map "rb"
      · rw [if_pos h2]
        obtain ⟨s0, tel0, he, -, hst, -⟩ := move_spec s now "stop" h
        exact Or.inr ⟨s0, _, _, by rw [he]; rfl, fun _ => hst⟩
      · rw [if_neg h2]
        by_cases h3 : code = key_map "lt" ∨ code = key_map "rt"
        · rw [if_pos h3]
          obtain ⟨s0, tels0, he, hinv0, -⟩ :=
            spin_spec s now (if code = 313 then "right" else "left") h
          exact Or.inr ⟨s0, _, _, by rw [he]; rfl, hinv0⟩
        · rw [if_neg h3]
          by_cases h4 : code = key_map "square" ∨ code = key_map "x" ∨
              code = key_map "circle"
          · rw [if_pos h4]
            obtain ⟨s0, he, hcd0, hst0⟩ := modify_speed_spec cfg s code
            refine Or.inr ⟨s0, _, _, by rw [he]; rfl, ?_⟩
            intro hc
            rw [hcd0] at hc
            rw [hst0]
            exact h hc
          · rw [if_neg h4]
            by_cases h5 : code = key_map "triangle"
            · rw [if_pos h5]
              exact Or.inl ⟨trivial, h5, rfl⟩
            · rw [if_neg h5]
              exact Or.inr ⟨s, _, _, rfl, h⟩
    · rw [if_neg h0]
      have h1' : ¬(value = 1) := h1
      have h0' : ¬(value = 0) := h0
      rw [if_neg h1', if_neg h0']
      exact Or.inr ⟨s, _, _, rfl, h⟩

theorem handle_abs_spec (cfg : Config) (s : PS4State) (now : ℚ)
    (held : Bool) (code value : Int) (h : startInv s) :
    ∃ s' cmds tels,
      handle_abs_event cfg s now held code value = some (s', cmds, tels) ∧
      startInv s' := by
  unfold handle_abs_event
  split_ifs with hx hh hl hb
  · obtain ⟨s0, tel0, he, -, hst, -⟩ := move_spec s now "right" h
    exact ⟨s0, _, _, by rw [he]; rfl, fun _ => hst⟩
  · obtain ⟨s0, tel0, he, -, hst, -⟩ := move_spec s now "left" h
    exact ⟨s0, _, _, by rw [he]; rfl, fun _ => hst⟩
  · obtain ⟨s0, tel0, he, -, hst, -⟩ := move_spec s now "stop" h
    exact ⟨s0, _, _, by rw [he]; rfl, fun _ => hst⟩
  · exact ⟨s, _, _, rfl, h⟩
  · exact ⟨s, _, _, rfl, h⟩

theorem reachable_startInv {cfg : Config} {s : PS4State}
    (h : Reachable cfg s) : startInv s := by
  induction h with
  | init => intro hc; exact absurd rfl hc
  | @move_step s s' now d c tel hr hm ih => exact (move_startInv ih hm).1
  | @spin_step s s' now d cmds tels hr hm ih =>
    obtain ⟨s0, tels0, he, hinv0, -⟩ := spin_spec s now d ih
    rw [he] at hm
    simp only [Option.some.injEq, Prod.mk.injEq] at hm
    obtain ⟨rfl, -, -⟩ := hm
    exact hinv0
  | @speed_step s s' code hr hm ih =>
    obtain ⟨s0, he, hcd, hst⟩ := modify_speed_spec cfg s code
    rw [he] at hm
    injection hm with hm
    subst hm
    intro hc
    rw [hcd] at hc
    rw [hst]
    exact ih hc
  | @key_step s s' now held held' code value cmds tels hr hk ih =>
    rcases handle_key_spec cfg s now held code value ih with
      ⟨-, -, he⟩ | ⟨s0, cmds0, tels0, he, hinv0⟩
    · rw [he] at hk
      exact absurd hk (by simp)
    · rw [he] at hk
      injection hk with hk
      injection hk with hb hs hc ht
      subst hs
      exact hinv0
  | @abs_step s s' now held code value cmds tels hr ha ih =>
    obtain ⟨s0, cmds0, tels0, he, hinv0⟩ :=
      handle_abs_spec cfg s now held code value ih
    rw [he] at ha
    simp only [Option.some.injEq, Prod.mk.injEq] at ha
    obtain ⟨rfl, -, -⟩ := ha
    exact hinv0

theorem directions_stop (s : PS4State) : directions s "stop" = (0, 0) := rfl

theorem stopmap_last {s : PS4State} {t : ℚ} {k0 : TermKind}
    {cmds : List ((ℚ × ℚ) × ℚ)} {k : TermKind}
    (h : Option.map (fun r => ([(r.2.1, t)], k0)) (move s t "stop")
          = some (cmds, k)) :
    ∃ tt, cmds.getLast? = some (((0 : ℚ), (0 : ℚ)), tt) := by
  rcases hm : move s t "stop" with _ | ⟨s', c, tel⟩
  · rw [hm] at h
    simp at h
  · rw [hm] at h
    simp only [Option.map_some', Option.some.injEq, Prod.mk.injEq] at h
    obtain ⟨hcm, -⟩ := h
    have hc : c = ((0 : ℚ), (0 : ℚ)) := (move_cmd hm).trans (directions_stop s)
    subst hc
    exact ⟨t, by rw [← hcm]; rfl⟩

theorem mainLoop_last_stop {cfg : Config} {events : List (ℚ × RawEvent)}
    {readErr : Option ℚ} {s : PS4State} {held : Bool}
    {cmds : List ((ℚ × ℚ) × ℚ)} {k : TermKind}
    (h : mainLoop cfg s held events readErr = some (cmds, k))
    (hk : k ≠ TermKind.eof) :
    ∃ t, cmds.getLast? = some (((0 : ℚ), (0 : ℚ)), t) := by
  induction events generalizing s held cmds k with
  | nil =>
    rcases readErr with _ | terr
    · simp only [mainLoop, Option.some.injEq, Prod.mk.injEq] at h
      exact absurd h.2.symm hk
    · simp only [mainLoop] at h
      exact stopmap_last h
  | cons te rest ih =>
    obtain ⟨t, ev⟩ := te
    unfold mainLoop at h
    split_ifs at h with h1 h2
    · split at h
    
      · exact stopmap_last h
      · exact stopmap_last h
      · rename_i held' s' cmds0 tels0 heq
        rcases hml : mainLoop cfg s' held' rest readErr with _ | ⟨cs, k'⟩
        · rw [hml] at h
          simp at h
        · rw [hml] at h
          simp only [Option.map_some', Option.some.injEq, Prod.mk.injEq] at h
          obtain ⟨hcm, hkk⟩ := h
          subst hkk
          obtain ⟨t0, hlast⟩ := ih hml hk
          have hcs : cs ≠ [] := by
            intro hnil
            rw [hnil] at hlast
            simp at hlast
          refine ⟨t0, ?_⟩
          rw [← hcm, List.getLast?_append_of_ne_nil _ hcs]
          exact hlast
    · split at h
    
      · exact stopmap_last h
      · rename_i s' cmds0 tels0 heq
        rcases hml : mainLoop cfg s' held rest readErr with _ | ⟨cs, k'⟩
        · rw [hml] at h
          simp at h
        · rw [hml] at h
          simp only [Option.map_some', Option.some.injEq, Prod.mk.injEq] at h
          obtain ⟨hcm, hkk⟩ := h
          subst hkk
          obtain ⟨t0, hlast⟩ := ih hml hk
          have hcs : cs ≠ [] := by
            intro hnil
            rw [hnil] at hlast
            simp at hlast
          refine ⟨t0, ?_⟩
          rw [← hcm, List.getLast?_append_of_ne_nil _ hcs]
          exact hlast
    · exact ih h hk

/-! ### Claims -/

/-- C10: in every state reachable from the initial state by move, spin,
speed-toggle and event-handling operations, `direction_start_time` is
set whenever `current_direction` is, and consequently `move` never hits
the `None`-timestamp subtraction (it never returns the failure value). -/
theorem reachable_no_none_subtraction (cfg : Config) (s : PS4State)
    (h : Reachable cfg s) :
    (s.current_direction ≠ none → s.direction_start_time ≠ none) ∧
    ∀ now d, move s now d ≠ none := by
  have hinv : startInv s := reachable_startInv h
  refine ⟨hinv, fun now d => ?_⟩
  obtain ⟨s0, tel0, he, -⟩ := move_spec s now d hinv
  rw [he]
  exact fun hc => Option.noConfusion hc

/-- Witness for C10 at the initial state. -/
theorem reachable_no_none_subtraction_witness :
    (((initState defaultConfig).current_direction ≠ none →
       (initState defaultConfig).direction_start_time ≠ none) ∧
     ∀ now d, move (initState defaultConfig) now d ≠ none) :=
  reachable_no_none_subtraction defaultConfig (initState defaultConfig)
    Reachable.init

/-- C9: under monotone time, a `move` to a direction different from a
previously active one emits exactly one telemetry record, carrying the
old direction and a non-negative duration; a `move` to the current
direction, or from the initial no-direction state, emits none. -/
theorem move_telemetry_policy (s : PS4State) (now : ℚ) (d : String)
    (hmono : ∀ t0, s.direction_start_time = some t0 → t0 ≤ now) :
    (∀ d0 t0, s.current_direction = some d0 → d0 ≠ d →
      s.direction_start_time = some t0 →
      ∃ s' c, move s now d = some (s', c, some ⟨d0, now - t0⟩) ∧
        0 ≤ now - t0) ∧
    (s.current_direction = some d →
      ∃ s' c, move s now d = some (s', c, none)) ∧
    (s.current_direction = none →
      ∃ s' c, move s now d = some (s', c, none)) := by
  refine ⟨?_, ?_, ?_⟩
  · intro d0 t0 hcd hne hts
    have hd : ¬s.current_direction = some d := by
      rw [hcd]
      exact fun hc => hne (Option.some.inj hc)
    refine ⟨{ s with current_direction := some d, direction_start_time := some now }, directions s d, ?_, sub_nonneg.mpr (hmono t0 hts)⟩
    simp [move, hd, hcd, hts, directions_update]
    exact hne
  · intro hcd
    exact ⟨s, directions s d, by simp [move, hcd]⟩
  · intro hcd
    have hd : ¬s.current_direction = some d := by rw [hcd]; simp
    refine ⟨{ s with current_direction := some d, direction_start_time := some now }, directions s d, ?_⟩
    simp [move, hd, hcd, directions_update]

/-- Witness for C9: after moving forward at time 0, a `stop` at time 1
logs one telemetry record for `forward` with duration 1. -/
theorem move_telemetry_policy_witness :
    ∃ s' c, move { initState defaultConfig with current_direction := some "forward", direction_start_time := some 0 } 1 "stop"
        = some (s', c, some ⟨"forward", 1 - 0⟩) ∧ 0 ≤ (1 : ℚ) - 0 :=
  (move_telemetry_policy { initState defaultConfig with current_direction := some "forward", direction_start_time := some 0 } 1 "stop"
      (fun t0 ht0 => by injection ht0 with h; rw [← h]; norm_num)).1
    "forward" 0 rfl (by decide) rfl

/-- C5: the motor command emitted by `move` for each direction name, as
a function of the current trimmed magnitudes, and the concrete forward
command at the default configuration's initial state. -/
theorem move_direction_pairs (s : PS4State) (now : ℚ) (hinv : startInv s) :
    (∃ s' tel, move s now "forward" =
      some (s', (-s.leftmotorspeed, -s.rightmotorspeed), tel)) ∧
    (∃ s' tel, move s now "backward" =
      some (s', (s.leftmotorspeed, s.rightmotorspeed), tel)) ∧
    (∃ s' tel, move s now "left" =
      some (s', (-s.leftmotorspeed, s.rightmotorspeed), tel)) ∧
    (∃ s' tel, move s now "right" =
      some (s', (s.leftmotorspeed, -s.rightmotorspeed), tel)) ∧
    (∃ s' tel, move s now "sharp_left" =
      some (s', ((1 : ℚ), (-1 : ℚ)), tel)) ∧
    (∃ s' tel, move s now "sharp_right" =
      some (s', ((-1 : ℚ), (1 : ℚ)), tel)) ∧
    (∃ s' tel, move s now "stop" =
      some (s', ((0 : ℚ), (0 : ℚ)), tel)) ∧
    (∃ s' tel, move (initState defaultConfig) now "forward" =
      some (s', ((-(1 : ℚ)/2, -(51 : ℚ)/100)), tel)) := by
  have hinit : startInv (initState defaultConfig) := fun hc => absurd rfl hc
  obtain ⟨s1, t1, h1, -⟩ := move_spec s now "forward" hinv
  obtain ⟨s2, t2, h2, -⟩ := move_spec s now "backward" hinv
  obtain ⟨s3, t3, h3, -⟩ := move_spec s now "left" hinv
  obtain ⟨s4, t4, h4, -⟩ := move_spec s now "right" hinv
  obtain ⟨s5, t5, h5, -⟩ := move_spec s now "sharp_left" hinv
  obtain ⟨s6, t6, h6, -⟩ := move_spec s now "sharp_right" hinv
  obtain ⟨s7, t7, h7, -⟩ := move_spec s now "stop" hinv
  obtain ⟨s8, t8, h8, -⟩ := move_spec (initState defaultConfig) now "forward" hinit
  refine ⟨⟨s1, t1, h1⟩, ⟨s2, t2, h2⟩, ⟨s3, t3, h3⟩, ⟨s4, t4, h4⟩,
    ⟨s5, t5, h5⟩, ⟨s6, t6, h6⟩, ⟨s7, t7, h7⟩, ⟨s8, t8, ?_⟩⟩
  rw [h8]
  norm_num [directions, initState, defaultConfig]

/-- Witness for C5 at the default initial state and time 0. -/
theorem move_direction_pairs_witness :
    ∃ s' tel, move (initState defaultConfig) 0 "forward" =
      some (s', ((-(1 : ℚ)/2, -(51 : ℚ)/100)), tel) :=
  (move_direction_pairs (initState defaultConfig) 0
      (fun hc => absurd rfl hc)).2.2.2.2.2.2.2

/-- C2 counterexample: on the code, a triangle key event with the press
value 1 does not produce the exit outcome (it falls through the press
branch), while the release value 0 does raise it. -/
theorem triangle_press_no_exit :
    handle_key_event defaultConfig (initState defaultConfig) 0 false
        (key_map "triangle") 1
      = some (.ok true (initState defaultConfig) [] []) ∧
    handle_key_event defaultConfig (initState defaultConfig) 0 false
        (key_map "triangle") 0 = some .interrupt := by
  constructor <;> rfl

/-- C2 (amended): the exit outcome is produced on the triangle release
transition (value 0), never on the press transition (value 1), in every
state. -/
theorem triangle_exit_on_release (cfg : Config) (s : PS4State) (now : ℚ)
    (held : Bool) :
    handle_key_event cfg s now held (key_map "triangle") BUTTON_RELEASE
      = some .interrupt ∧
    handle_key_event cfg s now held (key_map "triangle") BUTTON_PRESS
      = some (.ok true s [] []) := by
  constructor <;> rfl

/-- C1: for a horizontal-axis event, an axis value strictly inside the
deadzone band moves to stop only when the held flag is false (with the
flag true the state is untouched and nothing is emitted), while a value
at or beyond either threshold moves right or left for any flag value. -/
theorem axis_deadzone_policy (cfg : Config) (s : PS4State) (now : ℚ)
    (value : Int) (hlh : cfg.LOW_DEADZONE < cfg.HIGH_DEADZONE)
    (hinv : startInv s) :
    (cfg.LOW_DEADZONE < value → value < cfg.HIGH_DEADZONE →
      handle_abs_event cfg s now true ABS_X value = some (s, [], []) ∧
      ∃ s' c tels, handle_abs_event cfg s now false ABS_X value =
        some (s', [(c, now)], tels) ∧ s'.current_direction = some "stop") ∧
    (∀ held, cfg.HIGH_DEADZONE ≤ value →
      ∃ s' c tels, handle_abs_event cfg s now held ABS_X value =
        some (s', [(c, now)], tels) ∧ s'.current_direction = some "right") ∧
    (∀ held, value ≤ cfg.LOW_DEADZONE →
      ∃ s' c tels, handle_abs_event cfg s now held ABS_X value =
        some (s', [(c, now)], tels) ∧ s'.current_direction = some "left") := by
  refine ⟨?_, ?_, ?_⟩
  · intro hlo hhi
    have hge : ¬(value ≥ cfg.HIGH_DEADZONE) := not_le.mpr hhi
    have hle : ¬(value ≤ cfg.LOW_DEADZONE) := not_le.mpr hlo
    constructor
    · simp [handle_abs_event, ABS_X, hge, hle]
    · obtain ⟨s0, tel0, he, hcd, -⟩ := move_spec s now "stop" hinv
      refine ⟨s0, directions s "stop", tel0.toList, ?_, hcd⟩
      simp [handle_abs_event, ABS_X, hge, hle, he]
  · intro held hge
    obtain ⟨s0, tel0, he, hcd, -⟩ := move_spec s now "right" hinv
    refine ⟨s0, directions s "right", tel0.toList, ?_, hcd⟩
    simp [handle_abs_event, ABS_X, ge_iff_le, hge, he]
  · intro held hle
    have hge : ¬(value ≥ cfg.HIGH_DEADZONE) :=
      not_le.mpr (lt_of_le_of_lt hle hlh)
    obtain ⟨s0, tel0, he, hcd, -⟩ := move_spec s now "left" hinv
    refine ⟨s0, directions s "left", tel0.toList, ?_, hcd⟩
    simp [handle_abs_event, ABS_X, hge, hle, he]

/-- Witness for C1 at the default deadzones, axis value 120 (inside the
band), held flag true. -/
theorem axis_deadzone_policy_witness :
    handle_abs_event defaultConfig (initState defaultConfig) 0 true ABS_X 120
      = some (initState defaultConfig, [], []) :=
  ((axis_deadzone_policy defaultConfig (initState defaultConfig) 0 120
      (by decide) (fun hc => absurd rfl hc)).1 (by decide) (by decide)).1

/-- C3: whenever the session loop ends through the exit action
(`interrupted`) or a caught error (`errored`), the last motor command it
emitted is the stop command (0, 0). -/
theorem session_final_stop (cfg : Config) (events : List (ℚ × RawEvent))
    (readErr : Option ℚ) (cmds : List ((ℚ × ℚ) × ℚ)) (k : TermKind)
    (h : mainLoop cfg (initState cfg) false events readErr = some (cmds, k))
    (hk : k = TermKind.interrupted ∨ k = TermKind.errored) :
    ∃ t, cmds.getLast? = some (((0 : ℚ), (0 : ℚ)), t) :=
  mainLoop_last_stop h (by rcases hk with rfl | rfl <;> decide)

/-- Witness for C3: the run consisting of one triangle release. -/
theorem session_final_stop_witness :
    ∃ t, ([(((0 : ℚ), (0 : ℚ)), (0 : ℚ))] : List ((ℚ × ℚ) × ℚ)).getLast?
      = some (((0 : ℚ), (0 : ℚ)), t) :=
  session_final_stop defaultConfig [(0, ⟨EV_KEY, 307, 0⟩)] none
    [(((0 : ℚ), (0 : ℚ)), 0)] TermKind.interrupted (by rfl) (Or.inl rfl)

/-- C7 counterexample: on a device-read error the main method returns
normally (`Except.ok`) after emitting the stop command; the error is
caught and logged, not re-raised to the caller. -/
theorem main_swallows_read_error :
    mainMethod defaultConfig [] (some 0)
      = some (Except.ok ([(((0 : ℚ), (0 : ℚ)), 0)], TermKind.errored)) := rfl

/-- C7 (amended): a device-read failure is terminal for the session
loop and the final stop command is emitted, but the error is caught
inside the main method (every completed run is `Except.ok`) rather than
propagated to the caller. -/
theorem main_read_error_stop_and_catch (cfg : Config)
    (events : List (ℚ × RawEvent)) (terr : ℚ) :
    (∀ r, mainMethod cfg events (some terr) = some r →
      ∃ p, r = Except.ok p) ∧
    (∀ cmds k, mainMethod cfg events (some terr)
        = some (Except.ok (cmds, k)) → k = TermKind.errored →
      ∃ t, cmds.getLast? = some (((0 : ℚ), (0 : ℚ)), t)) := by
  constructor
  · intro r hr
    unfold mainMethod at hr
    rcases hml : mainLoop cfg (initState cfg) false events (some terr)
      with _ | p
    · rw [hml] at hr
      simp at hr
    · rw [hml] at hr
      simp only [Option.map_some', Option.some.injEq] at hr
      exact ⟨p, hr.symm⟩
  · intro cmds k hr hke
    subst hke
    unfold mainMethod at hr
    rcases hml : mainLoop cfg (initState cfg) false events (some terr)
      with _ | ⟨cs, k'⟩
    · rw [hml] at hr
      simp at hr
    · rw [hml] at hr
      simp only [Option.map_some', Option.some.injEq, Except.ok.injEq,
        Prod.mk.injEq] at hr
      obtain ⟨rfl, rfl⟩ := hr
      exact mainLoop_last_stop hml (by decide)

/-- Witness for C7 on the empty event stream with the read error at
time 2. -/
theorem main_read_error_witness :
    ∃ t, ([(((0 : ℚ), (0 : ℚ)), (2 : ℚ))] : List ((ℚ × ℚ) × ℚ)).getLast?
      = some (((0 : ℚ), (0 : ℚ)), t) :=
  (main_read_error_stop_and_catch defaultConfig [] 2).2
    [(((0 : ℚ), (0 : ℚ)), 2)] TermKind.errored (by rfl) rfl

/-- C8: `spin` emits exactly the two timed motor commands, the
sharp-turn pair for its direction at the call time and the stop pair
one time unit later, and a trigger-right release routes through
`spin right`, emitting (-1, 1) then (0, 0). -/
theorem spin_two_commands (cfg : Config) (s : PS4State) (now : ℚ)
    (held : Bool) (hinv : startInv s) :
    (∃ s' tels, spin s now "right" =
      some (s', [(((-1 : ℚ), (1 : ℚ)), now), (((0 : ℚ), (0 : ℚ)), now + 1)],
        tels)) ∧
    (∃ s' tels, spin s now "left" =
      some (s', [(((1 : ℚ), (-1 : ℚ)), now), (((0 : ℚ), (0 : ℚ)), now + 1)],
        tels)) ∧
    (∃ s' tels, handle_key_event cfg s now held (key_map "rt") BUTTON_RELEASE
      = some (.ok false s'
          [(((-1 : ℚ), (1 : ℚ)), now), (((0 : ℚ), (0 : ℚ)), now + 1)] tels)) := by
  obtain ⟨sr, telsr, her, -⟩ := spin_spec s now "right" hinv
  obtain ⟨sl, telsl, hel, -⟩ := spin_spec s now "left" hinv
  have hdr : directions s ("sharp_" ++ "right") = ((-1 : ℚ), (1 : ℚ)) := rfl
  have hdl : directions s ("sharp_" ++ "left") = ((1 : ℚ), (-1 : ℚ)) := rfl
  rw [hdr] at her
  rw [hdl] at hel
  refine ⟨⟨sr, telsr, her⟩, ⟨sl, telsl, hel⟩, ⟨sr, telsr, ?_⟩⟩
  have hcond : handle_key_event cfg s now held (key_map "rt") BUTTON_RELEASE
      = (spin s now "right").map
          fun r => KeyOutcome.ok false r.1 r.2.1 r.2.2 := rfl
  rw [hcond, her]
  rfl

/-- Witness for C8 at the default initial state and time 0. -/
theorem spin_two_commands_witness :
    ∃ s' tels, spin (initState defaultConfig) 0 "right" =
      some (s', [(((-1 : ℚ), (1 : ℚ)), 0), (((0 : ℚ), (0 : ℚ)), 0 + 1)],
        tels) :=
  (spin_two_commands defaultConfig (initState defaultConfig) 0 false
      (fun hc => absurd rfl hc)).1

/-- C6 counterexample: pressing the square button (code 308, not a
bumper) sets the held flag to true from the initial state. -/
theorem button_held_nonbumper_press :
    handle_key_event defaultConfig (initState defaultConfig) 0 false
        (key_map "square") 1
      = some (.ok true (initState defaultConfig) [] []) ∧
    key_map "square" ≠ key_map "rb" ∧ key_map "square" ≠ key_map "lb" :=
  ⟨rfl, by decide, by decide⟩

/-- C6 (amended): `handle_key_event` returns the held flag as true
after every press event (value 1) and as false after every release
event (value 0), regardless of which button the code names, and leaves
flag and state unchanged for any other value. -/
theorem button_held_any_key (cfg : Config) (s : PS4State) (now : ℚ)
    (held : Bool) (code value : Int) (hinv : startInv s) :
    (value = 1 → ∃ s' cmds tels,
      handle_key_event cfg s now held code value =
        some (.ok true s' cmds tels)) ∧
    (value = 0 → code ≠ key_map "triangle" → ∃ s' cmds tels,
      handle_key_event cfg s now held code value =
        some (.ok false s' cmds tels)) ∧
    (value ≠ 1 → value ≠ 0 →
      handle_key_event cfg s now held code value =
        some (.ok held s [] [])) := by
  refine ⟨?_, ?_, ?_⟩
  · rintro rfl
    rcases handle_key_spec cfg s now held code 1 hinv with
      ⟨h0, -, -⟩ | ⟨s0, cmds0, tels0, he, -⟩
    · exact absurd h0 (by decide)
    · have hb : (if (1 : Int) = 1 then true
          else if (1 : Int) = 0 then false else held) = true := by norm_num
      rw [hb] at he
      exact ⟨s0, cmds0, tels0, he⟩
  · rintro rfl htri
    rcases handle_key_spec cfg s now held code 0 hinv with
      ⟨-, hcode, -⟩ | ⟨s0, cmds0, tels0, he, -⟩
    · exact absurd hcode htri
    · have hb : (if (0 : Int) = 1 then true
          else if (0 : Int) = 0 then false else held) = false := by norm_num
      rw [hb] at he
      exact ⟨s0, cmds0, tels0, he⟩
  · intro h1 h0
    unfold handle_key_event
    rw [if_neg (show ¬(value = BUTTON_PRESS) from h1),
      if_neg (show ¬(value = BUTTON_RELEASE) from h0)]

/-- Witness for C6 at the x button (code 304) pressed from the initial
state. -/
theorem button_held_any_key_witness :
    ∃ s' cmds tels,
      handle_key_event defaultConfig (initState defaultConfig) 0 false 304 1
        = some (.ok true s' cmds tels) :=
  (button_held_any_key defaultConfig (initState defaultConfig) 0 false 304 1
      (fun hc => absurd rfl hc)).1 rfl

/-- C4: toggling a tier whose flag is off installs that tier's
magnitude pair (with the +0.01 right bias) and sets the flag; toggling
a tier whose flag is on installs the normal pair and clears the flag,
leaving the other tiers' flags untouched in both cases; hence toggling
any tier on and then off lands exactly on the normal pair, whatever the
other flags hold. -/
theorem modify_speed_toggle (cfg : Config) (s : PS4State) (t : String)
    (ht : t = "slow" ∨ t = "fast" ∨ t = "super") :
    (variable_speed_map s t = some 0 →
      ∃ s', modify_speed_helper cfg s t = some s' ∧
        s'.leftmotorspeed = tierMag cfg t ∧
        s'.rightmotorspeed = tierMag cfg t + 1/100 ∧
        variable_speed_map s' t = some 1 ∧
        ∀ u, u ≠ t → variable_speed_map s' u = variable_speed_map s u) ∧
    (∀ n, variable_speed_map s t = some n → n ≠ 0 →
      ∃ s', modify_speed_helper cfg s t = some s' ∧
        s'.leftmotorspeed = cfg.NORMAL_SPEED ∧
        s'.rightmotorspeed = cfg.NORMAL_SPEED + 1/100 ∧
        variable_speed_map s' t = some 0 ∧
        ∀ u, u ≠ t → variable_speed_map s' u = variable_speed_map s u) ∧
    (variable_speed_map s t = some 0 →
      ∃ s1 s2, modify_speed_helper cfg s t = some s1 ∧
        modify_speed_helper cfg s1 t = some s2 ∧
        s2.leftmotorspeed = cfg.NORMAL_SPEED ∧
        s2.rightmotorspeed = cfg.NORMAL_SPEED + 1/100 ∧
        variable_speed_map s2 t = some 0) := by
  rcases ht with rfl | rfl | rfl
  · refine ⟨?_, ?_, ?_⟩
    · intro h0
      have h0' : s.slow = 0 := by simpa [variable_speed_map] using h0
      refine ⟨{ s with leftmotorspeed := cfg.SLOW_SPEED, rightmotorspeed := cfg.SLOW_SPEED + 1/100, slow := 1 }, ?_, rfl, rfl, rfl, ?_⟩
      · simp [modify_speed_helper, variable_speed_map, set_variable_speed, h0']
      · intro u hu
        simp only [variable_speed_map]
        split_ifs with hb hc hd <;>
          first | rfl | exact absurd hb hu | exact absurd hc hu |
            exact absurd hd hu
    · intro n hn hne
      have hn' : s.slow = n := by simpa [variable_speed_map] using hn
      subst hn'
      refine ⟨{ s with leftmotorspeed := cfg.NORMAL_SPEED, rightmotorspeed := cfg.NORMAL_SPEED + 1/100, slow := 0 }, ?_, rfl, rfl, rfl, ?_⟩
      · simp [modify_speed_helper, variable_speed_map, set_variable_speed, hne]
      · intro u hu
        simp only [variable_speed_map]
        split_ifs with hb hc hd <;>
          first | rfl | exact absurd hb hu | exact absurd hc hu |
            exact absurd hd hu
    · intro h0
      have h0' : s.slow = 0 := by simpa [variable_speed_map] using h0
      refine ⟨{ s with leftmotorspeed := cfg.SLOW_SPEED, rightmotorspeed := cfg.SLOW_SPEED + 1/100, slow := 1 }, { s with leftmotorspeed := cfg.NORMAL_SPEED, rightmotorspeed := cfg.NORMAL_SPEED + 1/100, slow := 0 }, ?_, ?_, rfl, rfl, rfl⟩
      · simp [modify_speed_helper, variable_speed_map, set_variable_speed, h0']
      · simp [modify_speed_helper, variable_speed_map, set_variable_speed]
  · refine ⟨?_, ?_, ?_⟩
    · intro h0
      have h0' : s.fast = 0 := by simpa [variable_speed_map] using h0
      refine ⟨{ s with leftmotorspeed := cfg.FAST_SPEED, rightmotorspeed := cfg.FAST_SPEED + 1/100, fast := 1 }, ?_, rfl, rfl, rfl, ?_⟩
      · simp [modify_speed_helper, variable_speed_map, set_variable_speed, h0']
      · intro u hu
        simp only [variable_speed_map]
        split_ifs with hb hc hd <;>
          first | rfl | exact absurd hb hu | exact absurd hc hu |
            exact absurd hd hu
    · intro n hn hne
      have hn' : s.fast = n := by simpa [variable_speed_map] using hn
      subst hn'
      refine ⟨{ s with leftmotorspeed := cfg.NORMAL_SPEED, rightmotorspeed := cfg.NORMAL_SPEED + 1/100, fast := 0 }, ?_, rfl, rfl, rfl, ?_⟩
      · simp [modify_speed_helper, variable_speed_map, set_variable_speed, hne]
      · intro u hu
        simp only [variable_speed_map]
        split_ifs with hb hc hd <;>
          first | rfl | exact absurd hb hu | exact absurd hc hu |
            exact absurd hd hu
    · intro h0
      have h0' : s.fast = 0 := by simpa [variable_speed_map] using h0
      refine ⟨{ s with leftmotorspeed := cfg.FAST_SPEED, rightmotorspeed := cfg.FAST_SPEED + 1/100, fast := 1 }, { s with leftmotorspeed := cfg.NORMAL_SPEED, rightmotorspeed := cfg.NORMAL_SPEED + 1/100, fast := 0 }, ?_, ?_, rfl, rfl, rfl⟩
      · simp [modify_speed_helper, variable_speed_map, set_variable_speed, h0']
      · simp [modify_speed_helper, variable_speed_map, set_variable_speed]
  · refine ⟨?_, ?_, ?_⟩
    · intro h0
      have h0' : s.super = 0 := by simpa [variable_speed_map] using h0
      refine ⟨{ s with leftmotorspeed := cfg.SUPER_SPEED, rightmotorspeed := cfg.SUPER_SPEED + 1/100, super := 1 }, ?_, rfl, rfl, rfl, ?_⟩
      · simp [modify_speed_helper, variable_speed_map, set_variable_speed, h0']
      · intro u hu
        simp only [variable_speed_map]
        split_ifs with hb hc hd <;>
          first | rfl | exact absurd hb hu | exact absurd hc hu |
            exact absurd hd hu
    · intro n hn hne
      have hn' : s.super = n := by simpa [variable_speed_map] using hn
      subst hn'
      refine ⟨{ s with leftmotorspeed := cfg.NORMAL_SPEED, rightmotorspeed := cfg.NORMAL_SPEED + 1/100, super := 0 }, ?_, rfl, rfl, rfl, ?_⟩
      · simp [modify_speed_helper, variable_speed_map, set_variable_speed, hne]
      · intro u hu
        simp only [variable_speed_map]
        split_ifs with hb hc hd <;>
          first | rfl | exact absurd hb hu | exact absurd hc hu |
            exact absurd hd hu
    · intro h0
      have h0' : s.super = 0 := by simpa [variable_speed_map] using h0
      refine ⟨{ s with leftmotorspeed := cfg.SUPER_SPEED, rightmotorspeed := cfg.SUPER_SPEED + 1/100, super := 1 }, { s with leftmotorspeed := cfg.NORMAL_SPEED, rightmotorspeed := cfg.NORMAL_SPEED + 1/100, super := 0 }, ?_, ?_, rfl, rfl, rfl⟩
      · simp [modify_speed_helper, variable_speed_map, set_variable_speed, h0']
      · simp [modify_speed_helper, variable_speed_map, set_variable_speed]

/-- Witness for C4: toggling slow on from the initial state. -/
theorem modify_speed_toggle_witness :
    ∃ s', modify_speed_helper defaultConfig (initState defaultConfig) "slow"
        = some s' ∧
      s'.leftmotorspeed = tierMag defaultConfig "slow" ∧
      s'.rightmotorspeed = tierMag defaultConfig "slow" + 1/100 ∧
      variable_speed_map s' "slow" = some 1 ∧
      ∀ u, u ≠ "slow" →
        variable_speed_map s' u
          = variable_speed_map (initState defaultConfig) u :=
  (modify_speed_toggle defaultConfig (initState defaultConfig) "slow"
      (Or.inl rfl)).1 rfl
